import Mathlib

/-!
Shallow embedding of the MoviePilot `p115strgmsub` plugin
(115-cloud subscription sync): the subscription filter, the file matcher,
the client retry wrapper and the sync orchestrator counting logic,
together with theorems settling the frozen claims about them.

Source files embedded:
  plugins.v2/p115strgmsub/utils/file_matcher.py  (SubscribeFilter, FileMatcher)
  plugins.v2/p115strgmsub/p115client.py          (risk-control heuristic, _call, transfer_file)
  plugins.v2/p115strgmsub/handlers/sync.py and plugins.v2/p115strgmsub/__init__.py
                                                 (sync run counting, history cap)
-/

namespace P115

/-! ### Python string primitives

The plugin manipulates Python `str` values.  We model them as Lean
`String`/`List Char`.  `asciiLowerChar` models `str.lower` on the ASCII
letters (the only characters the embedded patterns and keyword lists are
case-sensitive about; CJK characters are unaffected by `lower`). -/

def asciiLowerChar (c : Char) : Char :=
  if 'A' ≤ c ∧ c ≤ 'Z' then Char.ofNat (c.toNat + 32) else c

def lowerChars (s : List Char) : List Char := s.map asciiLowerChar

/-- Model of Python `a.startswith(b)` on character lists (first argument is
the candidate initial run). -/
def initRun : List Char → List Char → Bool
  | [], _ => true
  | _ :: _, [] => false
  | p :: ps, t :: ts => p == t && initRun ps ts

/-- Model of the Python substring test `pat in text`. -/
def containsSub : List Char → List Char → Bool
  | pat, [] => pat.isEmpty
  | pat, t :: ts => initRun pat (t :: ts) || containsSub pat ts

/-- Model of `re.search(pat, text, re.IGNORECASE)` for a pattern `pat` that
contains no regex metacharacters (a literal), i.e. case-insensitive
substring search.  User-supplied quality/resolution/effect patterns are
arbitrary regexes, so theorems about the filter abstract the searcher as a
parameter; this concrete literal searcher instantiates it in witnesses. -/
def isearchLit (pat text : String) : Bool :=
  containsSub (lowerChars pat.data) (lowerChars text.data)

/-- Model of Python whitespace `\s` (ASCII cases). -/
def pyWs (c : Char) : Bool :=
  c == ' ' || c == '\t' || c == '\n' || c == '\r' ||
  c == Char.ofNat 11 || c == Char.ofNat 12

/-- Decimal value of a digit character. -/
def dval (c : Char) : Nat := c.toNat - 48

/-- Model of `pathlib.Path(name).suffix`: the final dot-suffix of the name,
empty when the last dot is the first character, absent, or the final
character (CPython: `i = name.rfind('.'); name[i:] if 0 < i < len(name) - 1
else ''`). -/
def pathSuffix (name : String) : String :=
  let cs := name.data
  match (cs.reverse).findIdx? (fun c => c == '.') with
  | none => ""
  | some k =>
    let i := cs.length - 1 - k
    if 0 < i ∧ i < cs.length - 1 then String.mk (cs.drop i) else ""

/-! ### SubscribeFilter (utils/file_matcher.py lines 13-104) -/

/-- The quality/resolution/effect regex constraints of a subscription.
`none` and `some ""` both model Python falsy values (`None`, `""`), which
the source tests with truthiness. -/
structure SubscribeFilter where
  quality : Option String
  resolution : Option String
  effect : Option String
  strict : Bool

/-- Python truthiness of an optional pattern string. -/
def optTruthy : Option String → Bool
  | none => false
  | some s => !s.isEmpty

/-- `SubscribeFilter.has_filters`: `bool(self.quality or self.resolution or
self.effect)`. -/
def SubscribeFilter.hasFilters (f : SubscribeFilter) : Bool :=
  optTruthy f.quality || optTruthy f.resolution || optTruthy f.effect

/-- One constraint check inside `SubscribeFilter.match`: `none` models the
early `return False, 0` taken in strict mode when the rule is configured
and the regex does not match; otherwise the score is carried forward,
incremented by 100 on a match.  `research pat name` models
`bool(re.search(pat, name, re.IGNORECASE))`. -/
def ruleStep (research : String → String → Bool) (strict : Bool)
    (rule : Option String) (fileName : String) : Option Nat → Option Nat
  | none => none
  | some score =>
    if optTruthy rule then
      if research (rule.getD "") fileName then some (score + 100)
      else if strict then none else some score
    else some score

/-- `SubscribeFilter.match` (lines 34-88): returns `(matched, score)`;
checks quality, then resolution, then effect, with an early strict-mode
rejection; each satisfied configured rule adds 100. -/
def SubscribeFilter.matchName (research : String → String → Bool)
    (f : SubscribeFilter) (fileName : String) : Bool × Nat :=
  if !f.hasFilters then (true, 0)
  else
    match ruleStep research f.strict f.effect fileName
      (ruleStep research f.strict f.resolution fileName
        (ruleStep research f.strict f.quality fileName (some 0))) with
    | none => (false, 0)
    | some score => (true, score)

/-- `SubscribeFilter.is_perfect_match` (lines 90-104). -/
def SubscribeFilter.isPerfectMatch (research : String → String → Bool)
    (f : SubscribeFilter) (fileName : String) : Bool :=
  if !f.hasFilters then true
  else if optTruthy f.quality && !research (f.quality.getD "") fileName then false
  else if optTruthy f.resolution && !research (f.resolution.getD "") fileName then false
  else if optTruthy f.effect && !research (f.effect.getD "") fileName then false
  else true

/-- Whether one configured rule is satisfied by the file name. -/
def ruleSat (research : String → String → Bool) (rule : Option String)
    (fileName : String) : Bool :=
  optTruthy rule && research (rule.getD "") fileName

/-- Number of configured constraints the file name satisfies. -/
def satisfiedCount (research : String → String → Bool) (f : SubscribeFilter)
    (fileName : String) : Nat :=
  (if ruleSat research f.quality fileName then 1 else 0) +
  (if ruleSat research f.resolution fileName then 1 else 0) +
  (if ruleSat research f.effect fileName then 1 else 0)

/-! ### FileMatcher regex scanners (utils/file_matcher.py lines 107-221)

Each concrete regex of the source is embedded as a hand-written scanner
with Python `re.search` semantics: leftmost starting position wins, and at
a fixed position a greedy group (`\d{1,2}`, `0?`, `\s*`) first consumes as
much as it can and backtracks when the remainder of the pattern fails. -/

/-- Generic leftmost search: try the position scanner at every suffix. -/
def scanFor {α : Type} (f : List Char → Option α) : List Char → Option α
  | [] => none
  | c :: rest =>
    match f (c :: rest) with
    | some v => some v
    | none => scanFor f rest

/-- Generic leftmost search, boolean version. -/
def scanB (f : List Char → Bool) : List Char → Bool
  | [] => false
  | c :: rest => f (c :: rest) || scanB f rest

/-- The tail `[Ee](\d{1,2})` of the SxxEyy pattern, greedy on the digits. -/
def epTail : List Char → Option Nat
  | e :: d1 :: d2 :: _ =>
    if (e == 'E' || e == 'e') && d1.isDigit then
      if d2.isDigit then some (10 * dval d1 + dval d2) else some (dval d1)
    else none
  | [e, d1] =>
    if (e == 'E' || e == 'e') && d1.isDigit then some (dval d1) else none
  | _ => none

/-- `[Ss](\d{1,2})[Ee](\d{1,2})` anchored at the current position: try a
two-digit season first, backtracking to one digit. -/
def sxexAt : List Char → Option (Nat × Nat)
  | s :: d1 :: d2 :: rest =>
    if s == 'S' || s == 's' then
      if d1.isDigit && d2.isDigit then
        match epTail rest with
        | some e => some (10 * dval d1 + dval d2, e)
        | none =>
          match epTail (d2 :: rest) with
          | some e => some (dval d1, e)
          | none => none
      else if d1.isDigit then
        match epTail (d2 :: rest) with
        | some e => some (dval d1, e)
        | none => none
      else none
    else none
  | _ => none

/-- `FileMatcher._extract_episode_from_sxex` (lines 174-186):
`re.search(r'[Ss](\d\x7b1,2\x7d)[Ee](\d\x7b1,2\x7d)', file_name)`. -/
def extractEpisodeFromSxEx (fileName : String) : Option (Nat × Nat) :=
  scanFor sxexAt fileName.data

/-- `[Ss](\d{1,2})[Ee]` anchored at the current position; returns the
season group. -/
def sxeAt : List Char → Option Nat
  | s :: d1 :: d2 :: e :: _ =>
    if s == 'S' || s == 's' then
      if d1.isDigit && d2.isDigit && (e == 'E' || e == 'e') then
        some (10 * dval d1 + dval d2)
      else if d1.isDigit && (d2 == 'E' || d2 == 'e') then some (dval d1)
      else none
    else none
  | [s, d1, d2] =>
    if (s == 'S' || s == 's') && d1.isDigit && (d2 == 'E' || d2 == 'e') then
      some (dval d1)
    else none
  | _ => none

/-- First non-whitespace tail of the list (`\s*` consumption). -/
def afterWs (l : List Char) : List Char := l.dropWhile pyWs

/-- `第\s*(\d{1,2})\s*季` anchored at the current position.  When two
digits follow, the one-digit backtrack necessarily fails (the next
character is a digit, which `\s*季` cannot absorb), so only the two-digit
reading is checked. -/
def cnSeasonAt : List Char → Option Nat
  | c :: rest =>
    if c == '第' then
      match afterWs rest with
      | d1 :: d2 :: r2 =>
        if d1.isDigit && d2.isDigit then
          if (afterWs r2).head? == some '季' then some (10 * dval d1 + dval d2)
          else none
        else if d1.isDigit then
          if (afterWs (d2 :: r2)).head? == some '季' then some (dval d1)
          else none
        else none
      | _ => none
    else none
  | [] => none

/-- Case-insensitive literal word match; returns the remainder on success. -/
def stripWordCI : List Char → List Char → Option (List Char)
  | [], l => some l
  | p :: ps, c :: cs =>
    if asciiLowerChar c == p then stripWordCI ps cs else none
  | _ :: _, [] => none

/-- `[Ss]eason\s*(\d{1,2})` with `re.IGNORECASE`, anchored. -/
def enSeasonAt (l : List Char) : Option Nat :=
  match stripWordCI "season".data l with
  | none => none
  | some rest =>
    match afterWs rest with
    | d1 :: d2 :: _ =>
      if d1.isDigit && d2.isDigit then some (10 * dval d1 + dval d2)
      else if d1.isDigit then some (dval d1)
      else none
    | [d1] => if d1.isDigit then some (dval d1) else none
    | [] => none

/-- `FileMatcher._contains_other_season` (lines 113-143): true when any of
the three season tags is present with a season different from the target;
a tag equal to the target falls through to the next tag. -/
def containsOtherSeason (fileName : String) (targetSeason : Nat) : Bool :=
  let cs := fileName.data
  (match scanFor sxeAt cs with
   | some n => n != targetSeason
   | none => false) ||
  (match scanFor cnSeasonAt cs with
   | some n => n != targetSeason
   | none => false) ||
  (match scanFor enSeasonAt cs with
   | some n => n != targetSeason
   | none => false)

/-- `FileMatcher._matches_target_season` (lines 145-172): the first season
tag found (SxxE, then 第N季, then Season N) is compared against the
target; with no tag at all the answer is false. -/
def matchesTargetSeason (fileName : String) (targetSeason : Nat) : Bool :=
  let cs := fileName.data
  match scanFor sxeAt cs with
  | some n => n == targetSeason
  | none =>
    match scanFor cnSeasonAt cs with
    | some n => n == targetSeason
    | none =>
      match scanFor enSeasonAt cs with
      | some n => n == targetSeason
      | none => false

/-! ### Episode-specific loose patterns (utils/file_matcher.py lines 206-221)

The loose and loosest patterns are f-strings with the target episode's
decimal digits spliced in (`0?{episode}` and the like). -/

/-- Decimal digits of the episode number, as spliced by the f-string. -/
def epDigits (episode : Nat) : List Char := (Nat.repr episode).data

/-- Match a literal character run, returning the remainder. -/
def stripLit : List Char → List Char → Option (List Char)
  | [], l => some l
  | p :: ps, c :: cs => if p == c then stripLit ps cs else none
  | _ :: _, [] => none

/-- Negative lookahead `(?!\d)`. -/
def noDigitAhead : List Char → Bool
  | d :: _ => !d.isDigit
  | [] => true

/-- `第\s*0?{episode}\s*集` anchored at the current position (`0?` is
greedy: the zero-consuming reading is tried first). -/
def cnEpAt (epd : List Char) : List Char → Bool
  | c :: rest =>
    if c == '第' then
      let tail : List Char → Bool := fun l =>
        match stripLit epd l with
        | some r2 => (afterWs r2).head? == some '集'
        | none => false
      match afterWs rest with
      | '0' :: r2 => tail r2 || tail ('0' :: r2)
      | r => tail r
    else false
  | [] => false

/-- `[Ee][Pp]0?{episode}(?!\d)` anchored at the current position. -/
def epTokenAt (epd : List Char) : List Char → Bool
  | e :: p :: rest =>
    if (e == 'E' || e == 'e') && (p == 'P' || p == 'p') then
      let tail : List Char → Bool := fun l =>
        match stripLit epd l with
        | some r2 => noDigitAhead r2
        | none => false
      match rest with
      | '0' :: r2 => tail r2 || tail ('0' :: r2)
      | r => tail r
    else false
  | _ => false

/-- Opening delimiter class `[\[\(\s\.\-_]`. -/
def openDelim (c : Char) : Bool :=
  c == '[' || c == '(' || pyWs c || c == '.' || c == '-' || c == '_'

/-- Closing delimiter class `[\]\)\s\.\-_]`. -/
def closeDelim (c : Char) : Bool :=
  c == ']' || c == ')' || pyWs c || c == '.' || c == '-' || c == '_'

/-- `[\[\(\s\.\-_][Ee]0?{episode}[\]\)\s\.\-_]` anchored. -/
def eDelimAt (epd : List Char) : List Char → Bool
  | d :: e :: rest =>
    if openDelim d && (e == 'E' || e == 'e') then
      let tail : List Char → Bool := fun l =>
        match stripLit epd l with
        | some (c :: _) => closeDelim c
        | _ => false
      match rest with
      | '0' :: r2 => tail r2 || tail ('0' :: r2)
      | r => tail r
    else false
  | _ => false

/-- Numeric-token delimiter class `[\.\s\-_]`. -/
def numDelim (c : Char) : Bool :=
  c == '.' || pyWs c || c == '-' || c == '_'

/-- The loosest pattern `[\.\s\-_]0?{episode}[\.\s\-_]` anchored. -/
def bareNumAt (epd : List Char) : List Char → Bool
  | d :: rest =>
    if numDelim d then
      let tail : List Char → Bool := fun l =>
        match stripLit epd l with
        | some (c :: _) => numDelim c
        | _ => false
      match rest with
      | '0' :: r2 => tail r2 || tail ('0' :: r2)
      | r => tail r
    else false
  | [] => false

/-- Whether any of the three loose patterns (lines 207-214) matches.  The
source loop breaks on the first matching pattern but runs the identical
body for each, so only the disjunction matters. -/
def anyLoosePattern (episode : Nat) (fileName : String) : Bool :=
  let epd := epDigits episode
  let cs := fileName.data
  scanB (cnEpAt epd) cs || scanB (epTokenAt epd) cs || scanB (eDelimAt epd) cs

/-- Whether the loosest pattern (lines 218-221) matches. -/
def anyLoosestPattern (episode : Nat) (fileName : String) : Bool :=
  scanB (bareNumAt (epDigits episode)) fileName.data

/-- `[Ss]\d+[Ee]` alternative of the season-token presence test: one or
more digits after the S, then E; backtracking over the digit run cannot
help, so the maximal run decides. -/
def sdEAt : List Char → Bool
  | s :: rest =>
    (s == 'S' || s == 's') &&
    (match rest with
     | d :: _ =>
       d.isDigit &&
       (match rest.dropWhile Char.isDigit with
        | e :: _ => e == 'E' || e == 'e'
        | [] => false)
     | [] => false)
  | [] => false

/-- `第\s*\d+\s*季` alternative of the presence test. -/
def cnAnyAt : List Char → Bool
  | c :: rest =>
    c == '第' &&
    (match afterWs rest with
     | d :: _ =>
       d.isDigit &&
       (afterWs ((afterWs rest).dropWhile Char.isDigit)).head? == some '季'
     | [] => false)
  | [] => false

/-- `[Ss]eason\s*\d+` alternative of the presence test (IGNORECASE). -/
def enAnyAt (l : List Char) : Bool :=
  match stripWordCI "season".data l with
  | none => false
  | some rest =>
    match afterWs rest with
    | d :: _ => d.isDigit
    | [] => false

/-- The season-token presence regex of line 296:
`[Ss]\d+[Ee]|第\s*\d+\s*季|[Ss]eason\s*\d+` with `re.IGNORECASE`. -/
def hasSeasonToken (fileName : String) : Bool :=
  scanB (fun l => sdEAt l || cnAnyAt l || enAnyAt l) fileName.data

/-! ### File tree and episode matching (utils/file_matcher.py lines 188-333) -/

/-- A share file node: the dict `\x7b"id", "name", "is_dir", "size",
"children"\x7d` (spec §3 ShareFileNode), with defaults `"" / False / 0 /
[]` as read by `file.get`. -/
inductive FNode where
  | node (id : Nat) (name : String) (isDir : Bool) (size : Nat)
      (children : List FNode) : FNode

def FNode.id : FNode → Nat
  | .node i _ _ _ _ => i

def FNode.name : FNode → String
  | .node _ n _ _ _ => n

def FNode.isDir : FNode → Bool
  | .node _ _ d _ _ => d

def FNode.size : FNode → Nat
  | .node _ _ _ s _ => s

def FNode.children : FNode → List FNode
  | .node _ _ _ _ c => c

/-- `FileMatcher.VIDEO_EXTENSIONS` (line 111). -/
def VIDEO_EXTENSIONS : List String :=
  [".mkv", ".mp4", ".avi", ".rmvb", ".wmv", ".flv", ".ts", ".m2ts"]

/-- Extension check of lines 256-259: `Path(file_name).suffix.lower() in
VIDEO_EXTENSIONS`. -/
def isVideoName (fileName : String) : Bool :=
  VIDEO_EXTENSIONS.contains (String.mk (lowerChars (pathSuffix fileName).data))

/-- Which candidate tier, if any, a non-directory file lands in. -/
inductive Tier where
  | strictT
  | looseT
  | loosestT
  | skip
deriving DecidableEq

/-- The filter gate of lines 267-274: a supplied filter with at least one
rule whose `match` rejects the name. -/
def filterRejects (research : String → String → Bool)
    (sf : Option SubscribeFilter) (fileName : String) : Bool :=
  match sf with
  | some f => f.hasFilters && !(f.matchName research fileName).1
  | none => false

/-- The per-file decision chain of the `match_episode_file` loop body for a
non-directory entry (lines 253-305): extension check, other-season check,
subscription filter, then the authoritative SxxEyy branch, then the loose
tier with its season gating, then the loosest tier gated on
`_matches_target_season`. -/
def classifyFile (research : String → String → Bool)
    (sf : Option SubscribeFilter) (season episode : Nat)
    (fileName : String) : Tier :=
  if !isVideoName fileName then .skip
  else if containsOtherSeason fileName season then .skip
  else if filterRejects research sf fileName then .skip
  else
    match extractEpisodeFromSxEx fileName with
    | some (foundSeason, foundEpisode) =>
      if foundSeason == season && foundEpisode == episode then .strictT
      else .skip
    | none =>
      if anyLoosePattern episode fileName then
        if season == 1 || matchesTargetSeason fileName season then .looseT
        else if !hasSeasonToken fileName then .looseT
        else .skip
      else
        if matchesTargetSeason fileName season then
          if anyLoosestPattern episode fileName then .loosestT else .skip
        else .skip

/-- The `filter_score` attached to a candidate (lines 267-270): 0 unless a
filter with at least one rule is supplied. -/
def fileFilterScore (research : String → String → Bool)
    (sf : Option SubscribeFilter) (fileName : String) : Nat :=
  match sf with
  | some f => if f.hasFilters then (f.matchName research fileName).2 else 0
  | none => 0

/-- Accumulated candidate lists `strict_matches` / `loose_matches` /
`loosest_matches` (lines 225-227), in encounter order. -/
structure Tiers where
  strictM : List (FNode × Nat)
  looseM : List (FNode × Nat)
  loosestM : List (FNode × Nat)

/-- First element of the list attaining the maximal score: the head of the
stable `sort(key=lambda x: x[1], reverse=True)` of lines 308-316. -/
def bestGo : FNode × Nat → List (FNode × Nat) → FNode × Nat
  | b, [] => b
  | b, x :: xs => bestGo (if x.2 > b.2 then x else b) xs

/-- `if tier_matches: tier_matches.sort(...); return tier_matches[0][0]`. -/
def pickBest : List (FNode × Nat) → Option FNode
  | [] => none
  | x :: xs => some (bestGo x xs).1

/-- Tier priority of lines 307-316: strict, then loose, then loosest. -/
def pickTiers (t : Tiers) : Option FNode :=
  match pickBest t.strictM with
  | some f => some f
  | none =>
    match pickBest t.looseM with
    | some f => some f
    | none => pickBest t.loosestM

mutual

/-- One iteration of the `for file in files` loop of `match_episode_file`
(lines 239-305): a directory is recursed into (`Except.error` models the
early `return matched` taken when the recursion finds a match), a file is
classified and appended to its tier. -/
def matchNode (research : String → String → Bool)
    (sf : Option SubscribeFilter) (title : String) (season episode : Nat) :
    FNode → Tiers → Except FNode Tiers
  | FNode.node i nm dir sz ch, acc =>
    if dir then
      if ch.isEmpty then .ok acc
      else
        match (match matchGo research sf title season episode ch
                 ⟨[], [], []⟩ with
               | .error m => some m
               | .ok sub => pickTiers sub) with
        | some m => .error m
        | none => .ok acc
    else
      match classifyFile research sf season episode nm with
      | .strictT =>
        .ok ⟨acc.strictM ++
               [(FNode.node i nm dir sz ch, fileFilterScore research sf nm)],
             acc.looseM, acc.loosestM⟩
      | .looseT =>
        .ok ⟨acc.strictM,
             acc.looseM ++
               [(FNode.node i nm dir sz ch, fileFilterScore research sf nm)],
             acc.loosestM⟩
      | .loosestT =>
        .ok ⟨acc.strictM, acc.looseM,
             acc.loosestM ++
               [(FNode.node i nm dir sz ch, fileFilterScore research sf nm)]⟩
      | .skip => .ok acc

/-- The `for file in files` loop of `match_episode_file`, over the file
list, threading the tier accumulator and propagating the early return. -/
def matchGo (research : String → String → Bool)
    (sf : Option SubscribeFilter) (title : String) (season episode : Nat) :
    List FNode → Tiers → Except FNode Tiers
  | [], acc => .ok acc
  | f :: rest, acc =>
    match matchNode research sf title season episode f acc with
    | .error m => .error m
    | .ok acc2 => matchGo research sf title season episode rest acc2

end

/-- `FileMatcher.match_episode_file` (lines 188-333).  The `title`
parameter is accepted and passed through exactly as in the source, which
never reads it. -/
def matchEpisodeFile (research : String → String → Bool)
    (sf : Option SubscribeFilter) (title : String) (season episode : Nat)
    (files : List FNode) : Option FNode :=
  match matchGo research sf title season episode files ⟨[], [], []⟩ with
  | .error m => some m
  | .ok acc => pickTiers acc

/-! ### Movie matching (utils/file_matcher.py lines 335-394) -/

mutual

/-- One iteration of the recursive `collect_video_files` closure: a
directory is walked depth-first in place, a non-directory video file of at
least `minBytes` that the filter does not strictly reject is appended with
its filter score. -/
def collectNode (research : String → String → Bool)
    (sf : Option SubscribeFilter) (minBytes : Nat) :
    FNode → List (FNode × Nat) → List (FNode × Nat)
  | FNode.node i nm dir sz ch, acc =>
    if dir then
      if ch.isEmpty then acc
      else collectVideoFiles research sf minBytes ch acc
    else if !isVideoName nm then acc
    else if sz < minBytes then acc
    else
      match sf with
      | some f =>
        if f.hasFilters then
          if (f.matchName research nm).1 then
            acc ++ [(FNode.node i nm dir sz ch, (f.matchName research nm).2)]
          else acc
        else acc ++ [(FNode.node i nm dir sz ch, 0)]
      | none => acc ++ [(FNode.node i nm dir sz ch, 0)]

/-- The `for file in file_list` loop of `collect_video_files`. -/
def collectVideoFiles (research : String → String → Bool)
    (sf : Option SubscribeFilter) (minBytes : Nat) :
    List FNode → List (FNode × Nat) → List (FNode × Nat)
  | [], acc => acc
  | f :: rest, acc =>
    collectVideoFiles research sf minBytes rest
      (collectNode research sf minBytes f acc)

end

/-- First element with the lexicographically maximal `(filterScore, size)`
key: head of the stable `sort(key=lambda x: (x[1], x[0].get("size", 0)),
reverse=True)` of line 393. -/
def bestMovieGo : FNode × Nat → List (FNode × Nat) → FNode × Nat
  | b, [] => b
  | b, x :: xs =>
    bestMovieGo
      (if x.2 > b.2 || (x.2 == b.2 && x.1.size > b.1.size) then x else b) xs

/-- `FileMatcher.match_movie_file` (lines 335-394); `minSizeMb` is the
`min_size_mb` parameter (default 500 at the call sites embedded here). -/
def matchMovieFile (research : String → String → Bool)
    (sf : Option SubscribeFilter) (minSizeMb : Nat) (files : List FNode) :
    Option FNode :=
  match collectVideoFiles research sf (minSizeMb * 1024 * 1024) files [] with
  | [] => none
  | x :: xs => some (bestMovieGo x xs).1

/-! ### Client error classification and retry (p115client.py lines 140-297) -/

/-- The risk-control keyword list of `_is_risk_control_text`
(lines 153-157). -/
def RISK_KEYWORDS : List String :=
  ["risk", "风控", "频繁", "太快", "too fast", "limit", "rate", "throttle",
   "验证码", "verify", "validation", "安全校验", "请稍后", "稍后再试", "系统繁忙",
   "429", "403", "forbidden", "denied"]

/-- `_is_risk_control_text` (lines 149-158): lowercase the text, then test
each keyword for substring containment. -/
def isRiskControlText (s : String) : Bool :=
  !s.isEmpty &&
  RISK_KEYWORDS.any (fun k => containsSub k.data (lowerChars s.data))

/-- An API response dict as inspected by `_is_risk_control_error` and the
transfer methods: the `state` flag plus the optional textual fields read by
the classifier (numeric fields appear through their `str()` image). -/
structure ApiResp where
  state : Bool
  error : Option String
  msg : Option String
  message : Option String
  errno : Option String
  errcode : Option String
  code : Option String

/-- The `" | ".join(parts)` text built from a response dict by
`_is_risk_control_error` (lines 164-170). -/
def respParts (r : ApiResp) : String :=
  String.intercalate " | "
    (List.filterMap id
      [r.error, r.msg, r.message, r.errno, r.errcode, r.code])

/-- `_is_risk_control_error` on a response dict. -/
def isRiskControlResp (r : ApiResp) : Bool :=
  isRiskControlText (respParts r)

/-- `error_msg = resp.get("error", "未知错误")` of lines 554 and 603. -/
def errText (r : ApiResp) : String := r.error.getD "未知错误"

/-- The duplicate test of `transfer_share` (line 555) and `transfer_file`
(line 604): `"重复" in str(error_msg) or "已存在" in str(error_msg)`. -/
def isDuplicateError (r : ApiResp) : Bool :=
  containsSub "重复".data (errText r).data ||
  containsSub "已存在".data (errText r).data

/-- Success classification applied by `transfer_file` (lines 599-609) and
`transfer_share` (lines 551-559) to the response returned by `_call`:
a true `state` is success, a failed `state` whose error text contains one
of the duplicate markers is also success, anything else is failure. -/
def transferClassify (resp : ApiResp) : Bool :=
  if resp.state then true
  else if isDuplicateError resp then true
  else false

/-! ### The `_call` retry loop (p115client.py lines 257-297)

The wrapped callable's behavior is abstracted as a sequence of per-attempt
outcomes; exceptions carry an abstract payload classified by a `risky`
predicate modelling `_is_risk_control_error`.  The `must_check_state`
conversion of lines 279-281 (a returned dict with falsy state classified
as risk control is re-raised, and the re-raised RuntimeError is again
classified as risk control because its message embeds the response text)
is represented as an exceptional attempt outcome.  `time.sleep(delay)` is
modelled by recording the slept delay; `random.uniform(0.0, 0.65)` is an
arbitrary jitter sequence. -/

/-- Outcome of one invocation of the wrapped callable. -/
inductive Attempt (E R : Type) where
  | ok (r : R)
  | exc (e : E)

/-- The `for i in range(max_retry + 1)` loop of `_call`, from attempt `i`
with `budget = max_retry - i` retries left (`budget = 0` is exactly the
loop's `i >= max_retry` last-iteration test): returns the result (`Except`
error on a raise), the total number of attempts made, and the list of
backoff delays slept (`base_delay * (2 ** i) + random.uniform(0.0, 0.65)`,
line 292). -/
def callGo {E R : Type} (attempt : Nat → Attempt E R) (risky : E → Bool)
    (baseDelay : ℚ) (jit : Nat → ℚ) :
    Nat → Nat → List ℚ → Except E R × Nat × List ℚ
  | i, budget, ds =>
    match attempt i with
    | .ok r => (.ok r, i + 1, ds)
    | .exc e =>
      match budget with
      | 0 => (.error e, i + 1, ds)
      | b + 1 =>
        if !risky e then (.error e, i + 1, ds)
        else
          callGo attempt risky baseDelay jit (i + 1) b
            (ds ++ [baseDelay * 2 ^ i + jit i])

/-- `P115ClientManager._call` (lines 257-297), with the endpoint limiter
and request counting elided (they do not affect the result, the attempt
count or the backoff schedule). -/
def callRun {E R : Type} (attempt : Nat → Attempt E R) (risky : E → Bool)
    (maxRetry : Nat) (baseDelay : ℚ) (jit : Nat → ℚ) :
    Except E R × Nat × List ℚ :=
  callGo attempt risky baseDelay jit 0 maxRetry []

/-! ### Sync run counting model
(handlers/sync.py `SyncHandler.process_movie_subscribe` /
`process_tv_subscribe`, and the identical inline loops of
`P115StrgmSub._do_sync`, plugins.v2/p115strgmsub/__init__.py lines
920-1604)

External collaborators are abstracted as data: the recognized media title,
the missing-episode list from the completeness calculator, the
already-in-cloud episode set, each search backend's resource list with its
share's validity and file tree, and a `succeeds` oracle giving the true
remote outcome of transferring a file id.  The `succeeds` oracle stands
for `transfer_file` on the movie path and, on the TV path, for membership
of the id in the `success_ids` of `transfer_files_batch` — the latter
method is absent from the sources, so per the spec (§4.1) it is modelled
as returning a partition of the submitted ids into succeeded and failed
ones. -/

/-- One persisted transfer-history entry (the dicts appended at
handlers/sync.py lines 216-227 and 603-615). -/
structure HistoryEntry where
  title : String
  season : Option Nat
  episode : Option Nat
  htype : String
  status : String
  fileName : String
  filterScore : Nat
  perfectMatch : Bool

/-- One search resource for a movie subscription: its share url, the
result of `check_share_status`, and the share's file listing. -/
structure MovieResource where
  url : String
  isValid : Bool
  files : List FNode

/-- A movie subscription together with the collaborator data its
processing consumes. -/
structure MovieJob where
  name : String
  bestVersion : Bool
  quality : Option String
  resolution : Option String
  effect : Option String
  recognized : Bool
  title : String
  resources : List MovieResource

/-- The movie history pre-check of handlers/sync.py lines 94-104: the best
score among successful movie entries with this subscription's name, `-1`
when there is none, with the matching entry's perfect flag. -/
def movieHistFold (name : String) (acc : Int × Bool) (h : HistoryEntry) :
    Int × Bool :=
  if h.title == name && h.htype == "电影" && h.status == "成功" then
    if (h.filterScore : Int) > acc.1 then ((h.filterScore : Int), h.perfectMatch)
    else acc
  else acc

def movieHistoryScan (name : String) (hist : List HistoryEntry) : Int × Bool :=
  hist.foldl (movieHistFold name) (-1, false)

/-- The `for resource in p115_results` loop of `process_movie_subscribe`
(lines 158-281).  A successful transfer sets `movie_transferred`, which
ends the loop at its next test, so the loop returns directly.  Note that
the incremented count is never compared against the per-run transfer
limit on this path. -/
def movieLoop (research : String → String → Bool) (succeeds : Nat → Bool)
    (filter : SubscribeFilter) (bestVersion : Bool) (title : String)
    (histScore : Int) :
    List MovieResource → Nat → List HistoryEntry → Nat × List HistoryEntry
  | [], c, h => (c, h)
  | r :: rest, c, h =>
    if r.url.isEmpty then
      movieLoop research succeeds filter bestVersion title histScore rest c h
    else if !r.isValid then
      movieLoop research succeeds filter bestVersion title histScore rest c h
    else if r.files.isEmpty then
      movieLoop research succeeds filter bestVersion title histScore rest c h
    else
      match matchMovieFile research (some filter) 500 r.files with
      | none =>
        movieLoop research succeeds filter bestVersion title histScore rest c h
      | some file =>
        let currentScore :=
          if filter.hasFilters then (filter.matchName research file.name).2
          else 0
        let isPerfect :=
          if filter.hasFilters then filter.isPerfectMatch research file.name
          else true
        if bestVersion && decide (0 ≤ histScore) &&
            decide ((currentScore : Int) ≤ histScore) then
          movieLoop research succeeds filter bestVersion title histScore rest c h
        else
          let success := succeeds file.id
          let h2 := h ++ [⟨title, none, none, "电影",
            if success then "成功" else "失败", file.name, currentScore,
            isPerfect⟩]
          if success then (c + 1, h2)
          else movieLoop research succeeds filter bestVersion title histScore rest c h2

/-- `SyncHandler.process_movie_subscribe` (lines 74-286) /
`_do_sync` movie loop body (lines 984-1188): returns the updated
`(transferred_count, history)`. -/
def processMovieSubscribe (research : String → String → Bool)
    (succeeds : Nat → Bool) (job : MovieJob) (c : Nat)
    (h : List HistoryEntry) : Nat × List HistoryEntry :=
  let scan := movieHistoryScan job.name h
  if decide (0 ≤ scan.1) && (!job.bestVersion || scan.2) then (c, h)
  else if !job.recognized then (c, h)
  else if job.resources.isEmpty then (c, h)
  else
    movieLoop research succeeds
      ⟨job.quality, job.resolution, job.effect, !job.bestVersion⟩
      job.bestVersion job.title scan.1 job.resources c h

/-! ### TV subscription processing (handlers/sync.py lines 288-709) -/

/-- One search resource for a TV subscription. -/
structure TvResource where
  url : String
  isValid : Bool
  files : List FNode

/-- A TV subscription together with the collaborator data its processing
consumes: `sources` holds, per enabled search backend in priority order,
the resources that backend returns. -/
structure TvJob where
  name : String
  lackEpisode : Nat
  startEpisode : Nat
  bestVersion : Bool
  quality : Option String
  resolution : Option String
  effect : Option String
  recognized : Bool
  title : String
  season : Nat
  existFlag : Bool
  missingEpisodes : List Nat
  existingInCloud : List Nat
  sources : List (List TvResource)

/-- `set.add` on a list kept duplicate-free in insertion order. -/
def setAdd (s : List Nat) (x : Nat) : List Nat :=
  if s.contains x then s else s ++ [x]

/-- Lookup in the `episode_history_scores` dict. -/
def dictGet (d : List (Nat × Nat)) (k : Nat) : Option Nat :=
  (d.find? (fun p => p.1 == k)).map (fun p => p.2)

/-- Assignment in the `episode_history_scores` dict. -/
def dictSet (d : List (Nat × Nat)) (k v : Nat) : List (Nat × Nat) :=
  if (d.find? (fun p => p.1 == k)).isSome then
    d.map (fun p => if p.1 == k then (k, v) else p)
  else d ++ [(k, v)]

/-- The TV history scan of handlers/sync.py lines 392-409: build the set
of episodes already successfully transferred and, in best-version mode,
the best non-perfect score per episode. -/
def tvHistFold (title : String) (season : Nat) (bestVersion : Bool)
    (acc : List Nat × List (Nat × Nat)) (h : HistoryEntry) :
    List Nat × List (Nat × Nat) :=
  if h.title == title && h.season == some season && h.status == "成功" then
    let ep := h.episode.getD 0
    if !bestVersion then (setAdd acc.1 ep, acc.2)
    else if h.perfectMatch then (setAdd acc.1 ep, acc.2)
    else
      match dictGet acc.2 ep with
      | none => (acc.1, dictSet acc.2 ep h.filterScore)
      | some old =>
        if h.filterScore > old then (acc.1, dictSet acc.2 ep h.filterScore)
        else acc
  else acc

def tvHistScan (title : String) (season : Nat) (bestVersion : Bool)
    (hist : List HistoryEntry) : List Nat × List (Nat × Nat) :=
  hist.foldl (tvHistFold title season bestVersion) ([], [])

/-- One element of `matched_items` (lines 561-567). -/
structure MatchedItem where
  file : FNode
  episode : Nat
  score : Nat
  isPerfect : Bool
  isUpgrade : Bool

/-- The `for episode in missing_episodes[:]` collection loop of lines
535-567: match each still-missing episode against the share tree, skipping
in best-version mode the episodes whose recorded score is not improved. -/
def collectItems (research : String → String → Bool)
    (filter : SubscribeFilter) (bestVersion : Bool) (title : String)
    (season : Nat) (scores : List (Nat × Nat)) (files : List FNode) :
    List Nat → List MatchedItem
  | [] => []
  | ep :: eps =>
    match matchEpisodeFile research (some filter) title season ep files with
    | none => collectItems research filter bestVersion title season scores files eps
    | some file =>
      let score :=
        if filter.hasFilters then (filter.matchName research file.name).2
        else 0
      let perfect :=
        if filter.hasFilters then filter.isPerfectMatch research file.name
        else true
      match dictGet scores ep with
      | some old =>
        if bestVersion then
          if score ≤ old then
            collectItems research filter bestVersion title season scores files eps
          else
            ⟨file, ep, score, perfect, true⟩ ::
              collectItems research filter bestVersion title season scores files eps
        else
          ⟨file, ep, score, perfect, false⟩ ::
            collectItems research filter bestVersion title season scores files eps
      | none =>
        ⟨file, ep, score, perfect, false⟩ ::
          collectItems research filter bestVersion title season scores files eps

/-- The per-item result processing of lines 594-651: append one history
entry per item; a succeeded item increments the counter, records its
score and leaves the missing list. -/
def processItems (succeeds : Nat → Bool) (title : String) (season : Nat) :
    List MatchedItem → List Nat → List (Nat × Nat) → Nat →
    List HistoryEntry → List Nat × List (Nat × Nat) × Nat × List HistoryEntry
  | [], m, s, c, h => (m, s, c, h)
  | it :: its, m, s, c, h =>
    let success := succeeds it.file.id
    let h2 := h ++ [⟨title, some season, some it.episode, "电视剧",
      if success then "成功" else "失败", it.file.name, it.score,
      it.isPerfect⟩]
    if success then
      processItems succeeds title season its (m.erase it.episode)
        (dictSet s it.episode it.score) (c + 1) h2
    else processItems succeeds title season its m s c h2

/-- The `for resource in p115_results` loop of lines 501-686: the per-run
limit is tested before each resource, the matched set is capped to the
remaining quota (lines 573-577), and an emptied missing list breaks the
loop. -/
def tvResourcesLoop (research : String → String → Bool)
    (succeeds : Nat → Bool) (filter : SubscribeFilter) (bestVersion : Bool)
    (title : String) (season : Nat) (maxTransfer : Nat) :
    List TvResource → List Nat → List (Nat × Nat) → Nat →
    List HistoryEntry → List Nat × List (Nat × Nat) × Nat × List HistoryEntry
  | [], m, s, c, h => (m, s, c, h)
  | r :: rest, m, s, c, h =>
    if maxTransfer ≤ c then (m, s, c, h)
    else if r.url.isEmpty then
      tvResourcesLoop research succeeds filter bestVersion title season
        maxTransfer rest m s c h
    else if !r.isValid then
      tvResourcesLoop research succeeds filter bestVersion title season
        maxTransfer rest m s c h
    else if r.files.isEmpty then
      tvResourcesLoop research succeeds filter bestVersion title season
        maxTransfer rest m s c h
    else
      match collectItems research filter bestVersion title season s r.files m with
      | [] =>
        tvResourcesLoop research succeeds filter bestVersion title season
          maxTransfer rest m s c h
      | it :: its =>
        let items := (it :: its).take (maxTransfer - c)
        let step := processItems succeeds title season items m s c h
        if step.1.isEmpty then step
        else
          tvResourcesLoop research succeeds filter bestVersion title season
            maxTransfer rest step.1 step.2.1 step.2.2.1 step.2.2.2

/-- The `for source_index, source in enumerate(enabled_sources)` loop of
lines 471-694, with its early exits on an emptied missing list and on the
exhausted per-run quota (lines 472-478). -/
def tvSourcesLoop (research : String → String → Bool)
    (succeeds : Nat → Bool) (filter : SubscribeFilter) (bestVersion : Bool)
    (title : String) (season : Nat) (maxTransfer : Nat) :
    List (List TvResource) → List Nat → List (Nat × Nat) → Nat →
    List HistoryEntry → Nat × List HistoryEntry
  | [], _, _, c, h => (c, h)
  | resources :: moreSources, m, s, c, h =>
    if m.isEmpty then (c, h)
    else if maxTransfer ≤ c then (c, h)
    else if resources.isEmpty then
      tvSourcesLoop research succeeds filter bestVersion title season
        maxTransfer moreSources m s c h
    else
      let step := tvResourcesLoop research succeeds filter bestVersion title
        season maxTransfer resources m s c h
      tvSourcesLoop research succeeds filter bestVersion title season
        maxTransfer moreSources step.1 step.2.1 step.2.2.1 step.2.2.2

/-- `SyncHandler.process_tv_subscribe` (lines 288-709) / the `_do_sync`
TV loop body: returns the updated `(transferred_count, history)`. -/
def processTvSubscribe (research : String → String → Bool)
    (succeeds : Nat → Bool) (maxTransfer : Nat) (job : TvJob) (c : Nat)
    (h : List HistoryEntry) : Nat × List HistoryEntry :=
  if job.lackEpisode == 0 then (c, h)
  else if !job.recognized then (c, h)
  else if job.existFlag then (c, h)
  else if job.missingEpisodes.isEmpty then (c, h)
  else
    let missing1 :=
      if job.startEpisode == 0 then job.missingEpisodes
      else job.missingEpisodes.filter (fun ep => job.startEpisode ≤ ep)
    let scan := tvHistScan job.title job.season job.bestVersion h
    let allEx0 := job.existingInCloud.foldl setAdd scan.1
    let allEx :=
      if job.bestVersion && !scan.2.isEmpty then
        allEx0.filter (fun e => !(scan.2.map (fun p => p.1)).contains e)
      else allEx0
    let missing2 :=
      if allEx.isEmpty then missing1
      else missing1.filter (fun e => !allEx.contains e)
    if missing2.isEmpty then (c, h)
    else if job.sources.isEmpty then (c, h)
    else
      tvSourcesLoop research succeeds
        ⟨job.quality, job.resolution, job.effect, !job.bestVersion⟩
        job.bestVersion job.title job.season maxTransfer job.sources missing2
        scan.2 c h

/-- `P115StrgmSub._do_sync` (plugins.v2/p115strgmsub/__init__.py lines
920-1604): process the movie subscriptions, then the TV subscriptions,
threading the single run-wide `transferred_count` and the shared history
list. -/
def doSyncRun (research : String → String → Bool) (succeeds : Nat → Bool)
    (maxTransfer : Nat) (movieJobs : List MovieJob) (tvJobs : List TvJob)
    (history0 : List HistoryEntry) : Nat × List HistoryEntry :=
  let st1 := movieJobs.foldl
    (fun st job => processMovieSubscribe research succeeds job st.1 st.2)
    (0, history0)
  tvJobs.foldl
    (fun st job => processTvSubscribe research succeeds maxTransfer job st.1 st.2)
    st1

/-- The history save of `_do_sync` (line 1583):
`self.save_data('history', history[-500:])`. -/
def savedHistory (h : List HistoryEntry) : List HistoryEntry :=
  h.drop (h.length - 500)

/-! ### Concrete instances used to exercise the embedding -/

/-- A 600 MiB movie video file. -/
def movieFileEx : FNode :=
  FNode.node 1 "Movie.2020.1080p.mkv" false (600 * 1024 * 1024) []

/-- A movie subscription whose single share resource holds `movieFileEx`. -/
def movieJobEx (nm : String) : MovieJob :=
  ⟨nm, false, none, none, none, true, nm,
   [⟨"https://115.com/s/abc", true, [movieFileEx]⟩]⟩

/-- A trivial regex oracle for runs whose filter has no rules. -/
def research0 : String → String → Bool := fun _ _ => false

/-- The example episode file of the spec (S02E05). -/
def epFileEx : FNode := FNode.node 7 "Show.S02E05.mkv" false 0 []

/-- A response whose error text is the literal English "already exists". -/
def respAlreadyExistsEn : ApiResp :=
  ⟨false, some "file already exists", none, none, none, none, none⟩

/-- A response carrying the Chinese duplicate marker `已存在`. -/
def respAlreadyExistsCn : ApiResp :=
  ⟨false, some "文件已存在", none, none, none, none, none⟩

/-- An attempt sequence whose first invocation raises a throttling error
and whose second returns a value. -/
def attemptEx : Nat → Attempt String Nat :=
  fun i => if i == 0 then .exc "429 too many requests" else .ok 7

/-- An attempt sequence that always raises a throttling error. -/
def attemptAll429 : Nat → Attempt String Nat := fun _ => .exc "429"

/-- A best-version filter with two configured rules. -/
def filterTwoRules : SubscribeFilter :=
  ⟨some "1080p", some "WEB", none, false⟩

/-- A strict filter demanding 2160p resolution. -/
def filterStrict2160 : SubscribeFilter := ⟨none, some "2160p", none, true⟩

/-- An unconfigured filter. -/
def filterNoRules : SubscribeFilter := ⟨none, none, none, true⟩

/-- A short history entry for exercising the history cap. -/
def hEntryEx : HistoryEntry := ⟨"t", none, none, "电影", "成功", "f", 0, false⟩

/-! ## Theorems -/

/-! ### Helper lemmas about the filter rule chain -/

theorem ruleStep_none (research : String → String → Bool) (strict : Bool)
    (rule : Option String) (fileName : String) :
    ruleStep research strict rule fileName none = none := rfl

theorem ruleStep_reject (research : String → String → Bool)
    (rule : Option String) (fileName : String) (acc : Option Nat)
    (ht : optTruthy rule = true)
    (hr : research (rule.getD "") fileName = false) :
    ruleStep research true rule fileName acc = none := by
  cases acc with
  | none => rfl
  | some score => simp [ruleStep, ht, hr]

theorem ruleStep_nonstrict (research : String → String → Bool)
    (rule : Option String) (fileName : String) (score : Nat) :
    ruleStep research false rule fileName (some score) =
      some (score + (if ruleSat research rule fileName then 100 else 0)) := by
  by_cases ht : optTruthy rule
  · by_cases hr : research (rule.getD "") fileName
    · simp [ruleStep, ruleSat, ht, hr]
    · simp [ruleStep, ruleSat, ht, hr]
  · simp [ruleStep, ruleSat, ht]

/-- C4: in strict mode, any configured constraint whose regex does not
match the file name makes `SubscribeFilter.match` reject the file with
`(False, 0)`. -/
theorem c4_strict_unmatched_rejects (research : String → String → Bool)
    (f : SubscribeFilter) (fileName : String) (hs : f.strict = true)
    (h : (optTruthy f.quality = true ∧
            research (f.quality.getD "") fileName = false) ∨
         (optTruthy f.resolution = true ∧
            research (f.resolution.getD "") fileName = false) ∨
         (optTruthy f.effect = true ∧
            research (f.effect.getD "") fileName = false)) :
    f.matchName research fileName = (false, 0) := by
  have hhf : f.hasFilters = true := by
    rcases h with ⟨ht, _⟩ | ⟨ht, _⟩ | ⟨ht, _⟩ <;>
      simp [SubscribeFilter.hasFilters, ht]
  unfold SubscribeFilter.matchName
  rw [hhf]
  rcases h with ⟨ht, hr⟩ | ⟨ht, hr⟩ | ⟨ht, hr⟩
  · rw [hs, ruleStep_reject research _ _ _ ht hr, ruleStep_none, ruleStep_none]
    rfl
  · rw [hs, ruleStep_reject research _ _ _ ht hr, ruleStep_none]
    rfl
  · rw [hs, ruleStep_reject research _ _ _ ht hr]
    rfl

/-- Witness for C4: with `strict=true` and resolution constraint `2160p`,
the file `Show.S01E01.1080p.mkv` is rejected. -/
theorem c4_witness :
    filterStrict2160.strict = true ∧
    optTruthy filterStrict2160.resolution = true ∧
    isearchLit (filterStrict2160.resolution.getD "") "Show.S01E01.1080p.mkv"
      = false ∧
    filterStrict2160.matchName isearchLit "Show.S01E01.1080p.mkv"
      = (false, 0) :=
  ⟨rfl, rfl, by decide,
   c4_strict_unmatched_rejects isearchLit filterStrict2160
     "Show.S01E01.1080p.mkv" rfl (Or.inr (Or.inl ⟨rfl, by decide⟩))⟩

/-- C9 (implicit): an unconfigured filter accepts every file with score 0
and reports every file as a perfect match. -/
theorem c9_no_rules_accepts_everything (research : String → String → Bool)
    (f : SubscribeFilter) (fileName : String)
    (hf : f.hasFilters = false) :
    f.matchName research fileName = (true, 0) ∧
    f.isPerfectMatch research fileName = true := by
  constructor
  · unfold SubscribeFilter.matchName
    rw [hf]
    rfl
  · unfold SubscribeFilter.isPerfectMatch
    rw [hf]
    rfl

/-- Witness for C9: the all-absent filter on a concrete file name. -/
theorem c9_witness :
    filterNoRules.hasFilters = false ∧
    filterNoRules.matchName isearchLit "Show.S01E01.1080p.mkv" = (true, 0) ∧
    filterNoRules.isPerfectMatch isearchLit "Show.S01E01.1080p.mkv" = true :=
  ⟨rfl,
   (c9_no_rules_accepts_everything isearchLit filterNoRules
     "Show.S01E01.1080p.mkv" rfl).1,
   (c9_no_rules_accepts_everything isearchLit filterNoRules
     "Show.S01E01.1080p.mkv" rfl).2⟩

/-! ### C2: duplicate-error classification in `transfer_file` -/

/-- Counterexample for C2 as stated: a failed response whose error text
contains the literal English words "already exists" is classified as a
failure, because the source tests only the Chinese markers `重复` and
`已存在`; the response is not risk-control classified either, so it does
reach this classification. -/
theorem c2_counterexample :
    respAlreadyExistsEn.state = false ∧
    containsSub "already exists".data (errText respAlreadyExistsEn).data
      = true ∧
    isRiskControlResp respAlreadyExistsEn = false ∧
    transferClassify respAlreadyExistsEn = false := by
  refine ⟨rfl, by decide, by decide, by decide⟩

/-- C2 (amended): a failed transfer response whose error text contains the
duplicate marker `已存在` ("already exists") or `重复` ("duplicate") is
classified as success. -/
theorem c2_duplicate_marker_is_success (resp : ApiResp)
    (hs : resp.state = false)
    (hd : containsSub "已存在".data (errText resp).data = true ∨
          containsSub "重复".data (errText resp).data = true) :
    transferClassify resp = true := by
  unfold transferClassify
  rw [hs]
  have hdup : isDuplicateError resp = true := by
    unfold isDuplicateError
    rcases hd with hd | hd <;> simp [hd]
  simp [hdup]

/-- Witness for C2 (amended): a failed response with error text
`文件已存在` is classified as success. -/
theorem c2_witness :
    respAlreadyExistsCn.state = false ∧
    containsSub "已存在".data (errText respAlreadyExistsCn).data = true ∧
    transferClassify respAlreadyExistsCn = true :=
  ⟨rfl, by decide,
   c2_duplicate_marker_is_success respAlreadyExistsCn rfl
     (Or.inl (by decide))⟩

/-! ### C6: the persisted history cap -/

/-- C6: the saved ledger `history[-500:]` holds at most 500 entries, is a
suffix of the in-memory ledger (so the dropped entries are exactly the
oldest, earliest-appended ones), and is the whole ledger when that already
fits. -/
theorem c6_history_cap (h : List HistoryEntry) :
    (savedHistory h).length ≤ 500 ∧
    (∃ dropped, h = dropped ++ savedHistory h) ∧
    (h.length ≤ 500 → savedHistory h = h) := by
  refine ⟨?_, ⟨h.take (h.length - 500), ?_⟩, ?_⟩
  · unfold savedHistory
    rw [List.length_drop]
    omega
  · unfold savedHistory
    exact (List.take_append_drop _ h).symm
  · intro hle
    unfold savedHistory
    have : h.length - 500 = 0 := by omega
    rw [this]
    rfl

/-- Witness for C6: a 501-entry ledger is cut to 500 entries, and a
3-entry ledger is kept whole. -/
theorem c6_witness :
    (savedHistory (List.replicate 501 hEntryEx)).length ≤ 500 ∧
    savedHistory (List.replicate 3 hEntryEx) = List.replicate 3 hEntryEx :=
  ⟨(c6_history_cap (List.replicate 501 hEntryEx)).1,
   (c6_history_cap (List.replicate 3 hEntryEx)).2.2 (by simp)⟩

/-! ### C5: best-version scoring and candidate selection -/

theorem bestGo_mem (b : FNode × Nat) (xs : List (FNode × Nat)) :
    bestGo b xs ∈ b :: xs := by
  induction xs generalizing b with
  | nil => simp [bestGo]
  | cons x xs ih =>
    rw [bestGo]
    rcases List.mem_cons.mp (ih (if x.2 > b.2 then x else b)) with h | h
    · rw [h]
      by_cases hx : x.2 > b.2 <;> simp [hx]
    · exact List.mem_cons_of_mem _ (List.mem_cons_of_mem _ h)

theorem bestGo_max (b : FNode × Nat) (xs : List (FNode × Nat)) :
    ∀ x ∈ b :: xs, x.2 ≤ (bestGo b xs).2 := by
  induction xs generalizing b with
  | nil =>
    intro x hx
    rcases List.mem_cons.mp hx with h | h
    · rw [h, bestGo]
    · simp at h
  | cons y ys ih =>
    intro x hx
    rw [bestGo]
    have hhead : (if y.2 > b.2 then y else b).2 ≤
        (bestGo (if y.2 > b.2 then y else b) ys).2 :=
      ih _ _ (List.mem_cons_self _ _)
    rcases List.mem_cons.mp hx with h | h
    · rw [h]
      refine le_trans ?_ hhead
      by_cases hy : y.2 > b.2
      · simp [hy]
        omega
      · simp [hy]
    · rcases List.mem_cons.mp h with h1 | h1
      · rw [h1]
        refine le_trans ?_ hhead
        by_cases hy : y.2 > b.2
        · simp [hy]
        · simp [hy]
          omega
      · exact ih _ _ (List.mem_cons_of_mem _ h1)

theorem hasFilters_false_parts (f : SubscribeFilter)
    (hhf : f.hasFilters = false) :
    optTruthy f.quality = false ∧ optTruthy f.resolution = false ∧
    optTruthy f.effect = false := by
  revert hhf
  unfold SubscribeFilter.hasFilters
  intro hhf
  simp at hhf
  exact ⟨hhf.1.1, hhf.1.2, hhf.2⟩

theorem pickBest_spec (cands : List (FNode × Nat)) (chosen : FNode)
    (hp : pickBest cands = some chosen) :
    ∃ s, (chosen, s) ∈ cands ∧ ∀ x ∈ cands, x.2 ≤ s := by
  match cands with
  | [] => simp [pickBest] at hp
  | x :: xs =>
    rw [pickBest] at hp
    refine ⟨(bestGo x xs).2, ?_, ?_⟩
    · have hm := bestGo_mem x xs
      have : (chosen, (bestGo x xs).2) = bestGo x xs := by
        rw [← Option.some_inj.mp hp]
      rw [this]
      exact hm
    · exact bestGo_max x xs

/-- C5: with `strict=false` (best-version mode) every file is accepted,
the score is 100 per satisfied configured constraint, `is_perfect_match`
holds exactly when every configured constraint is satisfied, and among the
candidates of one tier the one with the greatest filter score is the one
selected. -/
theorem c5_best_version_scoring (research : String → String → Bool)
    (f : SubscribeFilter) (fileName : String) (hs : f.strict = false) :
    (f.matchName research fileName).1 = true ∧
    (f.matchName research fileName).2
      = 100 * satisfiedCount research f fileName ∧
    (f.isPerfectMatch research fileName = true ↔
      ((optTruthy f.quality = true →
          research (f.quality.getD "") fileName = true) ∧
       (optTruthy f.resolution = true →
          research (f.resolution.getD "") fileName = true) ∧
       (optTruthy f.effect = true →
          research (f.effect.getD "") fileName = true))) ∧
    (∀ cands chosen, pickBest cands = some chosen →
      ∃ s, (chosen, s) ∈ cands ∧ ∀ x ∈ cands, x.2 ≤ s) := by
  have hmain : f.matchName research fileName
      = (true, 100 * satisfiedCount research f fileName) := by
    unfold SubscribeFilter.matchName
    by_cases hhf : f.hasFilters
    · rw [hhf]
      rw [hs, ruleStep_nonstrict, ruleStep_nonstrict, ruleStep_nonstrict]
      unfold satisfiedCount
      by_cases h1 : ruleSat research f.quality fileName <;>
        by_cases h2 : ruleSat research f.resolution fileName <;>
          by_cases h3 : ruleSat research f.effect fileName <;>
            simp [h1, h2, h3]
    · have hhf5 : f.hasFilters = false := by simpa using hhf
      obtain ⟨hq, hr, he⟩ := hasFilters_false_parts f hhf5
      simp only [hhf5, Bool.not_false, if_true]
      unfold satisfiedCount
      simp [ruleSat, hq, hr, he]
  refine ⟨by rw [hmain], by rw [hmain], ?_, fun c ch hp => pickBest_spec c ch hp⟩
  unfold SubscribeFilter.isPerfectMatch
  by_cases hhf : f.hasFilters
  · rw [hhf]
    by_cases h1 : optTruthy f.quality <;>
      by_cases h2 : optTruthy f.resolution <;>
        by_cases h3 : optTruthy f.effect <;>
          by_cases r1 : research (f.quality.getD "") fileName <;>
            by_cases r2 : research (f.resolution.getD "") fileName <;>
              by_cases r3 : research (f.effect.getD "") fileName <;>
                simp [h1, h2, h3, r1, r2, r3]
  · have hhf5 : f.hasFilters = false := by simpa using hhf
    obtain ⟨hq, hr, he⟩ := hasFilters_false_parts f hhf5
    simp [hhf5, hq, hr, he]

/-- Witness for C5: with two configured rules in best-version mode, a file
matching both scores 200 and is perfect; a file matching one scores 100
and is not perfect; between the two candidates the 200-score file is the
one `pickBest` selects. -/
theorem c5_witness :
    filterTwoRules.matchName isearchLit "B.S02E05.1080p.WEB.mkv"
      = (true, 200) ∧
    filterTwoRules.isPerfectMatch isearchLit "B.S02E05.1080p.WEB.mkv"
      = true ∧
    filterTwoRules.matchName isearchLit "A.S02E05.1080p.HDTV.mkv"
      = (true, 100) ∧
    filterTwoRules.isPerfectMatch isearchLit "A.S02E05.1080p.HDTV.mkv"
      = false ∧
    pickBest [(FNode.node 7 "B.S02E05.1080p.WEB.mkv" false 0 [], 200),
              (FNode.node 8 "A.S02E05.1080p.HDTV.mkv" false 0 [], 100)]
      = some (FNode.node 7 "B.S02E05.1080p.WEB.mkv" false 0 []) := by
  have h1 := c5_best_version_scoring isearchLit filterTwoRules
    "B.S02E05.1080p.WEB.mkv" rfl
  have h2 := c5_best_version_scoring isearchLit filterTwoRules
    "A.S02E05.1080p.HDTV.mkv" rfl
  refine ⟨?_, h1.2.2.1.mpr ⟨fun _ => by decide, fun _ => by decide,
    fun hf => by revert hf; decide⟩, ?_, ?_, by rfl⟩
  · have := h1.2.1
    have h1m := h1.1
    have : filterTwoRules.matchName isearchLit "B.S02E05.1080p.WEB.mkv"
        = (true, 100 * satisfiedCount isearchLit filterTwoRules
            "B.S02E05.1080p.WEB.mkv") := by
      rcases hmn : filterTwoRules.matchName isearchLit "B.S02E05.1080p.WEB.mkv"
        with ⟨a, b⟩
      rw [hmn] at h1m this
      simp at h1m this
      rw [h1m, this]
    rw [this]
    decide
  · have h2m := h2.1
    have h2s := h2.2.1
    have : filterTwoRules.matchName isearchLit "A.S02E05.1080p.HDTV.mkv"
        = (true, 100 * satisfiedCount isearchLit filterTwoRules
            "A.S02E05.1080p.HDTV.mkv") := by
      rcases hmn : filterTwoRules.matchName isearchLit "A.S02E05.1080p.HDTV.mkv"
        with ⟨a, b⟩
      rw [hmn] at h2m h2s
      simp at h2m h2s
      rw [h2m, h2s]
    rw [this]
    decide
  · have := h2.2.2.1
    rcases hpm : filterTwoRules.isPerfectMatch isearchLit
      "A.S02E05.1080p.HDTV.mkv"
    · rfl
    · rw [hpm] at this
      have hall := this.mp rfl
      have : isearchLit "WEB" "A.S02E05.1080p.HDTV.mkv" = true :=
        hall.2.1 rfl
      revert this
      decide

/-! ### C3: the SxxEyy token is authoritative -/

/-- C3: for a video file that passes the other-season and filter gates and
whose name carries an explicit SxxEyy token, the file is a strict-tier
candidate exactly when the token equals the target, and otherwise it is
skipped outright — it never enters the loose or loosest tiers. -/
theorem c3_sxex_token_authoritative (research : String → String → Bool)
    (sf : Option SubscribeFilter) (season episode fs fe : Nat)
    (name : String)
    (hv : isVideoName name = true)
    (ho : containsOtherSeason name season = false)
    (hf : filterRejects research sf name = false)
    (hx : extractEpisodeFromSxEx name = some (fs, fe)) :
    (classifyFile research sf season episode name = Tier.strictT ↔
      (fs = season ∧ fe = episode)) ∧
    (¬(fs = season ∧ fe = episode) →
      classifyFile research sf season episode name = Tier.skip) := by
  have hcl : classifyFile research sf season episode name =
      (if fs == season && fe == episode then Tier.strictT else Tier.skip) := by
    unfold classifyFile
    rw [hv, ho, hf, hx]
    simp
  constructor
  · rw [hcl]
    by_cases hb : fs = season ∧ fe = episode
    · have hbeq : (fs == season && fe == episode) = true := by
        simp [hb.1, hb.2]
      simp [hbeq, hb]
    · have hbeq : (fs == season && fe == episode) = false := by
        rcases not_and_or.mp hb with h | h
        · simp [h]
        · simp [h]
      simp [hbeq, hb]
  · intro hb
    rw [hcl]
    have hbeq : (fs == season && fe == episode) = false := by
      rcases not_and_or.mp hb with h | h
      · simp [h]
      · simp [h]
    simp [hbeq]

/-- Witness for C3: `Show.S02E05.mkv` is a strict candidate for target
(2, 5) and is skipped for target (2, 6); end to end,
`match_episode_file` finds it for episode 5 and nothing for episode 6. -/
theorem c3_witness :
    isVideoName "Show.S02E05.mkv" = true ∧
    containsOtherSeason "Show.S02E05.mkv" 2 = false ∧
    extractEpisodeFromSxEx "Show.S02E05.mkv" = some (2, 5) ∧
    classifyFile research0 none 2 5 "Show.S02E05.mkv" = Tier.strictT ∧
    classifyFile research0 none 2 6 "Show.S02E05.mkv" = Tier.skip ∧
    matchEpisodeFile research0 none "Show" 2 5 [epFileEx] = some epFileEx ∧
    matchEpisodeFile research0 none "Show" 2 6 [epFileEx] = none := by
  refine ⟨by decide, by decide, by decide, ?_, ?_, by rfl, by rfl⟩
  · exact (c3_sxex_token_authoritative research0 none 2 5 2 5
      "Show.S02E05.mkv" (by decide) (by decide) rfl (by decide)).1.mpr
      ⟨rfl, rfl⟩
  · exact (c3_sxex_token_authoritative research0 none 2 6 2 5
      "Show.S02E05.mkv" (by decide) (by decide) rfl (by decide)).2
      (fun hb => by omega)

/-! ### C8: the loosest tier demands an explicit target-season tag -/

/-- C8: a file only ever enters the loosest (bare numeric token) tier when
`_matches_target_season` succeeds on its name, i.e. when the name carries
an explicit SxxE / 第N季 / Season N tag naming the target season; in
particular a name with none of the three season tags never enters that
tier. -/
theorem c8_loosest_tier_requires_target_season
    (research : String → String → Bool) (sf : Option SubscribeFilter)
    (season episode : Nat) (name : String) :
    (classifyFile research sf season episode name = Tier.loosestT →
      matchesTargetSeason name season = true) ∧
    ((scanFor sxeAt name.data = none ∧ scanFor cnSeasonAt name.data = none ∧
        scanFor enSeasonAt name.data = none) →
      classifyFile research sf season episode name ≠ Tier.loosestT) := by
  have key : classifyFile research sf season episode name = Tier.loosestT →
      matchesTargetSeason name season = true := by
    intro hcl
    unfold classifyFile at hcl
    by_cases hv : isVideoName name
    · by_cases ho : containsOtherSeason name season
      · simp [hv, ho] at hcl
      · by_cases hf : filterRejects research sf name
        · simp [hv, ho, hf] at hcl
        · simp only [hv, Bool.not_true, ho, hf, if_false] at hcl
          rcases hx : extractEpisodeFromSxEx name with _ | ⟨fs, fe⟩
          · rw [hx] at hcl
            by_cases hl : anyLoosePattern episode name
            · by_cases hm1 : (season == 1 || matchesTargetSeason name season)
              · simp [hl, hm1] at hcl
              · by_cases hm2 : hasSeasonToken name
                · simp [hl, hm1, hm2] at hcl
                · simp [hl, hm1, hm2] at hcl
            · by_cases hm : matchesTargetSeason name season
              · exact hm
              · simp [hl, hm] at hcl
          · rw [hx] at hcl
            by_cases hb : (fs == season && fe == episode)
            · simp [hb] at hcl
            · simp [hb] at hcl
    · simp [hv] at hcl
  refine ⟨key, ?_⟩
  rintro ⟨ha, hb, hc⟩ hcl
  have hm := key hcl
  unfold matchesTargetSeason at hm
  simp [ha, hb, hc] at hm

/-- Witness for C8: `Season 2 .05.mkv` is a loosest-tier candidate for
(season 2, episode 5), and its name indeed names the target season. -/
theorem c8_witness :
    classifyFile research0 none 2 5 "Season 2 .05.mkv" = Tier.loosestT ∧
    matchesTargetSeason "Season 2 .05.mkv" 2 = true :=
  ⟨by decide,
   (c8_loosest_tier_requires_target_season research0 none 2 5
     "Season 2 .05.mkv").1 (by decide)⟩

/-! ### C10: episode matching only ever returns video files -/

theorem classify_not_skip_video (research : String → String → Bool)
    (sf : Option SubscribeFilter) (season episode : Nat) (nm : String)
    (h : classifyFile research sf season episode nm ≠ Tier.skip) :
    isVideoName nm = true := by
  by_cases hv : isVideoName nm
  · exact hv
  · exfalso
    apply h
    simp only [Bool.not_eq_true] at hv
    unfold classifyFile
    simp [hv]

theorem pickTiers_mem (t : Tiers) (f : FNode) (hp : pickTiers t = some f) :
    (∃ s, (f, s) ∈ t.strictM) ∨ (∃ s, (f, s) ∈ t.looseM) ∨
    (∃ s, (f, s) ∈ t.loosestM) := by
  unfold pickTiers at hp
  rcases h1 : pickBest t.strictM with _ | g
  · rw [h1] at hp
    rcases h2 : pickBest t.looseM with _ | g
    · rw [h2] at hp
      obtain ⟨s, hs, _⟩ := pickBest_spec _ _ hp
      exact Or.inr (Or.inr ⟨s, hs⟩)
    · rw [h2] at hp
      have : g = f := Option.some_inj.mp hp
      subst this
      obtain ⟨s, hs, _⟩ := pickBest_spec _ _ h2
      exact Or.inr (Or.inl ⟨s, hs⟩)
  · rw [h1] at hp
    have : g = f := Option.some_inj.mp hp
    subst this
    obtain ⟨s, hs, _⟩ := pickBest_spec _ _ h1
    exact Or.inl ⟨s, hs⟩

theorem matchGo_inv (research : String → String → Bool)
    (sf : Option SubscribeFilter) (title : String) (season episode : Nat) :
    ∀ (files : List FNode) (acc : Tiers),
      (∀ p : FNode × Nat,
          (p ∈ acc.strictM ∨ p ∈ acc.looseM ∨ p ∈ acc.loosestM) →
          p.1.isDir = false ∧ isVideoName p.1.name = true) →
      (∀ m, matchGo research sf title season episode files acc
          = Except.error m →
          m.isDir = false ∧ isVideoName m.name = true) ∧
      (∀ a, matchGo research sf title season episode files acc
          = Except.ok a →
          ∀ p : FNode × Nat,
            (p ∈ a.strictM ∨ p ∈ a.looseM ∨ p ∈ a.loosestM) →
            p.1.isDir = false ∧ isVideoName p.1.name = true) := by
  refine matchGo.induct research sf title season episode
    (fun f acc =>
      (∀ p : FNode × Nat,
          (p ∈ acc.strictM ∨ p ∈ acc.looseM ∨ p ∈ acc.loosestM) →
          p.1.isDir = false ∧ isVideoName p.1.name = true) →
      (∀ m, matchNode research sf title season episode f acc
          = Except.error m →
          m.isDir = false ∧ isVideoName m.name = true) ∧
      (∀ a, matchNode research sf title season episode f acc
          = Except.ok a →
          ∀ p : FNode × Nat,
            (p ∈ a.strictM ∨ p ∈ a.looseM ∨ p ∈ a.loosestM) →
            p.1.isDir = false ∧ isVideoName p.1.name = true))
    (fun files acc =>
      (∀ p : FNode × Nat,
          (p ∈ acc.strictM ∨ p ∈ acc.looseM ∨ p ∈ acc.loosestM) →
          p.1.isDir = false ∧ isVideoName p.1.name = true) →
      (∀ m, matchGo research sf title season episode files acc
          = Except.error m →
          m.isDir = false ∧ isVideoName m.name = true) ∧
      (∀ a, matchGo research sf title season episode files acc
          = Except.ok a →
          ∀ p : FNode × Nat,
            (p ∈ a.strictM ∨ p ∈ a.looseM ∨ p ∈ a.loosestM) →
            p.1.isDir = false ∧ isVideoName p.1.name = true))
    ?_ ?_ ?_ ?_ ?_ ?_ ?_ ?_ ?_ ?_
  · intro i nm sz ch acc hemp hacc
    constructor
    · intro m hm
      rw [matchNode] at hm
      simp [hemp] at hm
    · intro a ha
      rw [matchNode] at ha
      simp [hemp] at ha
      rw [← ha]
      exact hacc
  · intro i nm sz ch acc hemp f hsome ih hacc
    have hinit : ∀ p : FNode × Nat,
        (p ∈ (Tiers.mk [] [] []).strictM ∨ p ∈ (Tiers.mk [] [] []).looseM ∨
          p ∈ (Tiers.mk [] [] []).loosestM) →
        p.1.isDir = false ∧ isVideoName p.1.name = true := by
      intro p hp
      rcases hp with hp | hp | hp <;> simp at hp
    have ihi := ih hinit
    have hPf : f.isDir = false ∧ isVideoName f.name = true := by
      rcases hgo : matchGo research sf title season episode ch
        ⟨[], [], []⟩ with m | sub
      · rw [hgo] at hsome
        simp at hsome
        rw [← hsome]
        exact ihi.1 m hgo
      · rw [hgo] at hsome
        simp at hsome
        have hsub := ihi.2 sub hgo
        rcases pickTiers_mem sub f hsome with ⟨s, hs⟩ | ⟨s, hs⟩ | ⟨s, hs⟩
        · exact hsub (f, s) (Or.inl hs)
        · exact hsub (f, s) (Or.inr (Or.inl hs))
        · exact hsub (f, s) (Or.inr (Or.inr hs))
    constructor
    · intro m hm
      rw [matchNode] at hm
      simp only [if_true, hemp] at hm
      rw [hsome] at hm
      simp at hm
      rw [← hm]
      exact hPf
    · intro a ha
      rw [matchNode] at ha
      simp only [if_true, hemp] at ha
      rw [hsome] at ha
      simp at ha
  · intro i nm sz ch acc hemp hnone ih hacc
    constructor
    · intro m hm
      rw [matchNode] at hm
      simp only [if_true, hemp] at hm
      rw [hnone] at hm
      simp at hm
    · intro a ha
      rw [matchNode] at ha
      simp only [if_true, hemp] at ha
      rw [hnone] at ha
      simp at ha
      rw [← ha]
      exact hacc
  · intro i nm dir sz ch acc hdir hcl hacc
    have hdirf : dir = false := by simpa using hdir
    have hvid : isVideoName nm = true :=
      classify_not_skip_video research sf season episode nm
        (by rw [hcl]; intro h; cases h)
    constructor
    · intro m hm
      rw [matchNode] at hm
      simp [hdirf, hcl] at hm
    · intro a ha
      rw [matchNode] at ha
      simp [hdirf, hcl] at ha
      rw [← ha]
      intro p hp
      rcases hp with hp | hp | hp
      · simp at hp
        rcases hp with hp | hp
        · exact hacc p (Or.inl hp)
        · rw [hp]
          exact ⟨rfl, hvid⟩
      · exact hacc p (Or.inr (Or.inl hp))
      · exact hacc p (Or.inr (Or.inr hp))
  · intro i nm dir sz ch acc hdir hcl hacc
    have hdirf : dir = false := by simpa using hdir
    have hvid : isVideoName nm = true :=
      classify_not_skip_video research sf season episode nm
        (by rw [hcl]; intro h; cases h)
    constructor
    · intro m hm
      rw [matchNode] at hm
      simp [hdirf, hcl] at hm
    · intro a ha
      rw [matchNode] at ha
      simp [hdirf, hcl] at ha
      rw [← ha]
      intro p hp
      rcases hp with hp | hp | hp
      · exact hacc p (Or.inl hp)
      · simp at hp
        rcases hp with hp | hp
        · exact hacc p (Or.inr (Or.inl hp))
        · rw [hp]
          exact ⟨rfl, hvid⟩
      · exact hacc p (Or.inr (Or.inr hp))
  · intro i nm dir sz ch acc hdir hcl hacc
    have hdirf : dir = false := by simpa using hdir
    have hvid : isVideoName nm = true :=
      classify_not_skip_video research sf season episode nm
        (by rw [hcl]; intro h; cases h)
    constructor
    · intro m hm
      rw [matchNode] at hm
      simp [hdirf, hcl] at hm
    · intro a ha
      rw [matchNode] at ha
      simp [hdirf, hcl] at ha
      rw [← ha]
      intro p hp
      rcases hp with hp | hp | hp
      · exact hacc p (Or.inl hp)
      · exact hacc p (Or.inr (Or.inl hp))
      · simp at hp
        rcases hp with hp | hp
        · exact hacc p (Or.inr (Or.inr hp))
        · rw [hp]
          exact ⟨rfl, hvid⟩
  · intro i nm dir sz ch acc hdir hcl hacc
    have hdirf : dir = false := by simpa using hdir
    constructor
    · intro m hm
      rw [matchNode] at hm
      simp [hdirf, hcl] at hm
    · intro a ha
      rw [matchNode] at ha
      simp [hdirf, hcl] at ha
      rw [← ha]
      exact hacc
  · intro acc hacc
    constructor
    · intro m hm
      rw [matchGo] at hm
      cases hm
    · intro a ha
      rw [matchGo] at ha
      have : acc = a := by cases ha; rfl
      rw [← this]
      exact hacc
  · intro f rest acc m hnode ih hacc
    have ihn := ih hacc
    constructor
    · intro m2 hm2
      rw [matchGo] at hm2
      rw [hnode] at hm2
      simp at hm2
      rw [← hm2]
      exact ihn.1 m hnode
    · intro a ha
      rw [matchGo] at ha
      rw [hnode] at ha
      simp at ha
  · intro f rest acc sub hnode ihn ihr hacc
    have hsub := (ihn hacc).2 sub hnode
    have ihrest := ihr hsub
    constructor
    · intro m hm
      rw [matchGo] at hm
      rw [hnode] at hm
      exact ihrest.1 m hm
    · intro a ha
      rw [matchGo] at ha
      rw [hnode] at ha
      exact ihrest.2 a ha

/-- C10 (implicit): `match_episode_file` returns nothing or a
non-directory node whose name carries a recognized video extension, at any
nesting depth and for any filter. -/
theorem c10_match_returns_video_file (research : String → String → Bool)
    (sf : Option SubscribeFilter) (title : String) (season episode : Nat)
    (files : List FNode) (f : FNode)
    (hm : matchEpisodeFile research sf title season episode files = some f) :
    f.isDir = false ∧ isVideoName f.name = true := by
  unfold matchEpisodeFile at hm
  have hinit : ∀ p : FNode × Nat,
      (p ∈ (Tiers.mk [] [] []).strictM ∨ p ∈ (Tiers.mk [] [] []).looseM ∨
        p ∈ (Tiers.mk [] [] []).loosestM) →
      p.1.isDir = false ∧ isVideoName p.1.name = true := by
    intro p hp
    rcases hp with hp | hp | hp <;> simp at hp
  have hgoinv := matchGo_inv research sf title season episode files
    ⟨[], [], []⟩ hinit
  rcases hgo : matchGo research sf title season episode files
    ⟨[], [], []⟩ with m | a
  · rw [hgo] at hm
    simp at hm
    rw [← hm]
    exact hgoinv.1 m hgo
  · rw [hgo] at hm
    simp at hm
    have ha := hgoinv.2 a hgo
    rcases pickTiers_mem a f hm with ⟨s, hs⟩ | ⟨s, hs⟩ | ⟨s, hs⟩
    · exact ha (f, s) (Or.inl hs)
    · exact ha (f, s) (Or.inr (Or.inl hs))
    · exact ha (f, s) (Or.inr (Or.inr hs))

/-- Witness for C10: a match found two directory levels deep is a
non-directory video file. -/
theorem c10_witness :
    matchEpisodeFile research0 none "Show" 2 5
      [FNode.node 9 "dir" true 0 [FNode.node 10 "sub" true 0 [epFileEx]]]
      = some epFileEx ∧
    epFileEx.isDir = false ∧ isVideoName epFileEx.name = true :=
  ⟨by rfl,
   c10_match_returns_video_file research0 none "Show" 2 5
     [FNode.node 9 "dir" true 0 [FNode.node 10 "sub" true 0 [epFileEx]]]
     epFileEx (by rfl)⟩

/-! ### C7: the retry wrapper -/

theorem callGo_spec {E R : Type} (attempt : Nat → Attempt E R)
    (risky : E → Bool) (baseDelay : ℚ) (jit : Nat → ℚ) :
    ∀ (b i : Nat) (ds : List ℚ),
    (callGo attempt risky baseDelay jit i b ds).2.1 ≤ i + b + 1 ∧
    i < (callGo attempt risky baseDelay jit i b ds).2.1 ∧
    (∀ j, i ≤ j → j + 1 < (callGo attempt risky baseDelay jit i b ds).2.1 →
      ∃ e, attempt j = .exc e ∧ risky e = true) ∧
    (callGo attempt risky baseDelay jit i b ds).2.2 = ds ++
      (List.range' i ((callGo attempt risky baseDelay jit i b ds).2.1 - 1 - i)).map
        (fun t => baseDelay * 2 ^ t + jit t) ∧
    (∀ r, attempt ((callGo attempt risky baseDelay jit i b ds).2.1 - 1) = .ok r →
      (callGo attempt risky baseDelay jit i b ds).1 = .ok r) ∧
    (∀ e, attempt ((callGo attempt risky baseDelay jit i b ds).2.1 - 1) = .exc e →
      (callGo attempt risky baseDelay jit i b ds).1 = .error e ∧
      (risky e = false ∨
        (callGo attempt risky baseDelay jit i b ds).2.1 = i + b + 1)) := by
  intro b
  induction b with
  | zero =>
    intro i ds
    rcases hati : attempt i with r | e
    · have hn : (callGo attempt risky baseDelay jit i 0 ds).2.1 = i + 1 := by
        rw [callGo, hati]
      have hres : (callGo attempt risky baseDelay jit i 0 ds).1 = .ok r := by
        rw [callGo, hati]
      have hd : (callGo attempt risky baseDelay jit i 0 ds).2.2 = ds := by
        rw [callGo, hati]
      refine ⟨by rw [hn], by rw [hn]; omega, ?_, ?_, ?_, ?_⟩
      · intro j hj1 hj2
        rw [hn] at hj2
        omega
      · rw [hd, hn]
        simp
      · intro r2 hr2
        rw [hn] at hr2
        simp only [Nat.add_sub_cancel] at hr2
        rw [hati] at hr2
        cases hr2
        exact hres
      · intro e2 he2
        rw [hn] at he2
        simp only [Nat.add_sub_cancel] at he2
        rw [hati] at he2
        cases he2
    · have hn : (callGo attempt risky baseDelay jit i 0 ds).2.1 = i + 1 := by
        rw [callGo, hati]
      have hres : (callGo attempt risky baseDelay jit i 0 ds).1 = .error e := by
        rw [callGo, hati]
      have hd : (callGo attempt risky baseDelay jit i 0 ds).2.2 = ds := by
        rw [callGo, hati]
      refine ⟨by rw [hn], by rw [hn]; omega, ?_, ?_, ?_, ?_⟩
      · intro j hj1 hj2
        rw [hn] at hj2
        omega
      · rw [hd, hn]
        simp
      · intro r2 hr2
        rw [hn] at hr2
        simp only [Nat.add_sub_cancel] at hr2
        rw [hati] at hr2
        cases hr2
      · intro e2 he2
        rw [hn] at he2
        simp only [Nat.add_sub_cancel] at he2
        rw [hati] at he2
        cases he2
        exact ⟨hres, Or.inr (by rw [hn])⟩
  | succ b ih =>
    intro i ds
    rcases hati : attempt i with r | e
    · have hn : (callGo attempt risky baseDelay jit i (b + 1) ds).2.1 = i + 1 := by
        rw [callGo, hati]
      have hres : (callGo attempt risky baseDelay jit i (b + 1) ds).1 = .ok r := by
        rw [callGo, hati]
      have hd : (callGo attempt risky baseDelay jit i (b + 1) ds).2.2 = ds := by
        rw [callGo, hati]
      refine ⟨by rw [hn]; omega, by rw [hn]; omega, ?_, ?_, ?_, ?_⟩
      · intro j hj1 hj2
        rw [hn] at hj2
        omega
      · rw [hd, hn]
        simp
      · intro r2 hr2
        rw [hn] at hr2
        simp only [Nat.add_sub_cancel] at hr2
        rw [hati] at hr2
        cases hr2
        exact hres
      · intro e2 he2
        rw [hn] at he2
        simp only [Nat.add_sub_cancel] at he2
        rw [hati] at he2
        cases he2
    · by_cases hrk : risky e
      · have hout : callGo attempt risky baseDelay jit i (b + 1) ds
            = callGo attempt risky baseDelay jit (i + 1) b
                (ds ++ [baseDelay * 2 ^ i + jit i]) := by
          rw [callGo, hati]
          simp [hrk]
        obtain ⟨h1, h2, h3, h4, h5, h6⟩ :=
          ih (i + 1) (ds ++ [baseDelay * 2 ^ i + jit i])
        rw [hout]
        refine ⟨by omega, by omega, ?_, ?_, h5, ?_⟩
        · intro j hj1 hj2
          by_cases hji : j = i
          · subst hji
            exact ⟨e, hati, hrk⟩
          · exact h3 j (by omega) hj2
        · rw [h4, List.append_assoc]
          congr 1
          have hlen : (callGo attempt risky baseDelay jit (i + 1) b
              (ds ++ [baseDelay * 2 ^ i + jit i])).2.1 - 1 - i
              = ((callGo attempt risky baseDelay jit (i + 1) b
                  (ds ++ [baseDelay * 2 ^ i + jit i])).2.1 - 1 - (i + 1)) + 1 := by
            omega
          rw [hlen, List.range'_succ]
          simp
        · intro e2 he2
          obtain ⟨hres2, hcase⟩ := h6 e2 he2
          refine ⟨hres2, ?_⟩
          rcases hcase with hc | hc
          · exact Or.inl hc
          · exact Or.inr (by omega)
      · have hn : (callGo attempt risky baseDelay jit i (b + 1) ds).2.1
            = i + 1 := by
          rw [callGo, hati]
          simp [hrk]
        have hres : (callGo attempt risky baseDelay jit i (b + 1) ds).1
            = .error e := by
          rw [callGo, hati]
          simp [hrk]
        have hd : (callGo attempt risky baseDelay jit i (b + 1) ds).2.2
            = ds := by
          rw [callGo, hati]
          simp [hrk]
        refine ⟨by rw [hn]; omega, by rw [hn]; omega, ?_, ?_, ?_, ?_⟩
        · intro j hj1 hj2
          rw [hn] at hj2
          omega
        · rw [hd, hn]
          simp
        · intro r2 hr2
          rw [hn] at hr2
          simp only [Nat.add_sub_cancel] at hr2
          rw [hati] at hr2
          cases hr2
        · intro e2 he2
          rw [hn] at he2
          simp only [Nat.add_sub_cancel] at he2
          rw [hati] at he2
          cases he2
          refine ⟨hres, Or.inl ?_⟩
          simpa using hrk

/-- C7: the retry wrapper makes at most `max_retry + 1` attempts; every
attempt before the last one failed with a risk-control-classified error
(anything else returns or raises immediately); the delays slept before the
retries are exactly `base_delay * 2 ^ i` plus the i-th jitter, which under
the source's jitter bound `uniform(0, 0.65)` and a base delay of at least
0.65 form a strictly increasing backoff sequence; the final attempt's
outcome is returned as is, a final raise propagating the last error, which
is only reached when that error is not risk-control classified or the
attempt budget is exhausted. -/
theorem c7_call_retry_policy {E R : Type} (attempt : Nat → Attempt E R)
    (risky : E → Bool) (maxRetry : Nat) (baseDelay : ℚ) (jit : Nat → ℚ) :
    (callRun attempt risky maxRetry baseDelay jit).2.1 ≤ maxRetry + 1 ∧
    (∀ j, j + 1 < (callRun attempt risky maxRetry baseDelay jit).2.1 →
      ∃ e, attempt j = .exc e ∧ risky e = true) ∧
    (callRun attempt risky maxRetry baseDelay jit).2.2 =
      (List.range ((callRun attempt risky maxRetry baseDelay jit).2.1 - 1)).map
        (fun t => baseDelay * 2 ^ t + jit t) ∧
    (∀ r, attempt ((callRun attempt risky maxRetry baseDelay jit).2.1 - 1)
        = .ok r →
      (callRun attempt risky maxRetry baseDelay jit).1 = .ok r) ∧
    (∀ e, attempt ((callRun attempt risky maxRetry baseDelay jit).2.1 - 1)
        = .exc e →
      (callRun attempt risky maxRetry baseDelay jit).1 = .error e ∧
      (risky e = false ∨
        (callRun attempt risky maxRetry baseDelay jit).2.1 = maxRetry + 1)) ∧
    ((∀ t, 0 ≤ jit t ∧ jit t < 13 / 20) → 13 / 20 ≤ baseDelay →
      (callRun attempt risky maxRetry baseDelay jit).2.2.Pairwise
        (fun a b => a < b)) := by
  obtain ⟨h1, h2, h3, h4, h5, h6⟩ :=
    callGo_spec attempt risky baseDelay jit maxRetry 0 []
  simp only [Nat.zero_add] at h1 h6
  unfold callRun
  have hds : (callGo attempt risky baseDelay jit 0 maxRetry []).2.2 =
      (List.range ((callGo attempt risky baseDelay jit 0 maxRetry []).2.1 - 1)).map
        (fun t => baseDelay * 2 ^ t + jit t) := by
    rw [h4]
    rw [List.range_eq_range']
    simp
  refine ⟨h1, ?_, hds, h5, h6, ?_⟩
  · intro j hj
    exact h3 j (by omega) hj
  · intro hj hb
    rw [hds]
    rw [List.pairwise_map]
    refine (List.pairwise_lt_range _).imp ?_
    intro a b hab
    have hbase0 : (0 : ℚ) ≤ baseDelay := by linarith
    have hpow : (2 : ℚ) ^ (a + 1) ≤ 2 ^ b := by
      apply pow_le_pow_right₀ (by norm_num)
      omega
    have e1 : baseDelay * 2 ^ (a + 1) ≤ baseDelay * 2 ^ b :=
      mul_le_mul_of_nonneg_left hpow hbase0
    have e2 : baseDelay * 2 ^ (a + 1)
        = baseDelay * 2 ^ a + baseDelay * 2 ^ a := by
      rw [pow_succ]
      ring
    have h1a : (1 : ℚ) ≤ 2 ^ a := one_le_pow₀ (by norm_num)
    have e3 : baseDelay ≤ baseDelay * 2 ^ a := by nlinarith
    have ja := hj a
    have jb := hj b
    nlinarith

/-- Witness for C7: a first attempt failing with a throttling message
classified by the concrete keyword heuristic is retried and the second
attempt's value is returned within the bound; with the budget exhausted by
always-throttled attempts, the last error is raised after exactly
`max_retry + 1` attempts. -/
theorem c7_witness :
    (callRun attemptEx (fun e => isRiskControlText e) 5 (4 / 5)
      (fun _ => 0)).2.1 ≤ 6 ∧
    (callRun attemptAll429 (fun e => isRiskControlText e) 1 (4 / 5)
      (fun _ => 0)).1 = Except.error "429" := by
  constructor
  · exact (c7_call_retry_policy attemptEx (fun e => isRiskControlText e) 5
      (4 / 5) (fun _ => 0)).1
  · exact ((c7_call_retry_policy attemptAll429 (fun e => isRiskControlText e)
      1 (4 / 5) (fun _ => 0)).2.2.2.2.1 "429" rfl).1

/-! ### C1: the per-run transfer quota -/

/-- C1 (failing input): the movie-subscription path increments the
run-wide `transferred_count` without ever consulting
`max_transfer_per_sync` (handlers/sync.py lines 209-231 and the identical
`_do_sync` movie loop contain no quota test, unlike the TV path at lines
476-478, 502-504 and 573-577), so a run with `max_transfer_per_sync = 1`
and two movie subscriptions whose matched files both transfer successfully
ends with `transferred_count = 2`, violating the claimed invariant
`transferredCount <= maxTransferPerSync`. -/
theorem c1_movie_path_ignores_quota :
    (doSyncRun research0 (fun _ => true) 1
      [movieJobEx "M1", movieJobEx "M2"] [] []).1 = 2 ∧
    ¬ ((doSyncRun research0 (fun _ => true) 1
      [movieJobEx "M1", movieJobEx "M2"] [] []).1 ≤ 1) := by
  have h2 : (doSyncRun research0 (fun _ => true) 1
      [movieJobEx "M1", movieJobEx "M2"] [] []).1 = 2 := rfl
  refine ⟨h2, ?_⟩
  rw [h2]
  omega

end P115
